import Mathlib

/-!
Shallow embedding of `cpu.py`, an LS-8-style CPU emulator.

The Python source stores RAM and the register file as plain Python lists of
unbounded integers, so we model both as `List Int`.  Python list indexing
accepts negative indices (they wrap from the end) and raises `IndexError`
outside `[-len, len)`; `pyIdx`/`pyGet`/`pySet` reproduce that, with `none`
standing for the raised `IndexError`.  Python's `>>` on ints is a floor
shift (`a >> n == a // 2**n`) and `a & 1 == a % 2`; `pyShiftRight` and
`pyAnd1` reproduce those.
-/

/-- Resolve a Python list index against a list of length `n`:
nonnegative indices in range are used directly, negative indices in
`[-n, 0)` wrap from the end, anything else raises `IndexError` (`none`). -/
def pyIdx (n : Nat) (i : Int) : Option Nat :=
  if 0 ≤ i ∧ i < (n : Int) then some i.toNat
  else if -(n : Int) ≤ i ∧ i < 0 then some (i + (n : Int)).toNat
  else none

/-- Python `l[i]` on a list of ints. -/
def pyGet (l : List Int) (i : Int) : Option Int :=
  (pyIdx l.length i).bind fun j => l[j]?

/-- Python `l[i] = v` on a list of ints, returning the updated list. -/
def pySet (l : List Int) (i : Int) (v : Int) : Option (List Int) :=
  (pyIdx l.length i).map fun j => l.set j v

/-- Python `a >> n` on ints (floor division by `2^n`). -/
def pyShiftRight (a : Int) (n : Nat) : Int :=
  Int.fdiv a (2 ^ n)

/-- Python `a & 1` on ints (the low bit, `a % 2` with floor semantics). -/
def pyAnd1 (a : Int) : Int :=
  Int.emod a 2

namespace CPU

/-- The mutable fields of the Python `CPU` object: `self.ram`, `self.pc`,
`self.ir`, `self.reg`, `self.working`, `self.fl`.  (`self.sp` is the
constant 7, modelled as `CPU.sp` below; the dispatch table is modelled as
`instruction_table` below.) -/
structure CPUState where
  ram : List Int
  pc : Int
  ir : Int
  reg : List Int
  working : Bool
  fl : Int
  deriving Repr, DecidableEq

/-- `self.sp = 7`: the register index that holds the stack pointer. -/
def sp : Int := 7

/-- The state built by `CPU.__init__`: 256 zeroed RAM cells, 8 zeroed
registers except `reg[7] = 0xF4`, pc = ir = fl = 0, working = False. -/
def initCPU : CPUState where
  ram := List.replicate 256 0
  pc := 0
  ir := 0
  reg := [0, 0, 0, 0, 0, 0, 0, 0xF4]
  working := false
  fl := 0

/-- `self.ram_read(address)`. -/
def ram_read (s : CPUState) (address : Int) : Option Int :=
  pyGet s.ram address

/-- The ALU (`CPU.alu`): "ADD" adds the two registers into the first,
"MUL" multiplies them into the first, "CMP" compares them and sets the
flags to `0b010` / `0b100` / `0b001`; any other op name raises (`none`).
The additions/multiplications are Python's unbounded-int operations:
no masking to 8 bits occurs. -/
def alu (s : CPUState) (op : String) (reg_a reg_b : Int) : Option CPUState :=
  if op = "ADD" then do
    let va ← pyGet s.reg reg_a
    let vb ← pyGet s.reg reg_b
    let reg1 ← pySet s.reg reg_a (va + vb)
    pure { s with reg := reg1 }
  else if op = "MUL" then do
    let va ← pyGet s.reg reg_a
    let vb ← pyGet s.reg reg_b
    let reg1 ← pySet s.reg reg_a (va * vb)
    pure { s with reg := reg1 }
  else if op = "CMP" then do
    let va ← pyGet s.reg reg_a
    let vb ← pyGet s.reg reg_b
    pure { s with fl := if va > vb then 0b00000010 else if va < vb then 0b00000100 else 0b00000001 }
  else
    none

/-- `CPU.CMP`: read the two operand bytes and run the ALU compare. -/
def CMP (s : CPUState) : Option CPUState := do
  let reg_a ← ram_read s (s.pc + 1)
  let reg_b ← ram_read s (s.pc + 2)
  alu s "CMP" reg_a reg_b

/-- `CPU.JMP`: `pc = reg[ram_read(pc + 1)]`. -/
def JMP (s : CPUState) : Option CPUState := do
  let t ← ram_read s (s.pc + 1)
  let new_address ← pyGet s.reg t
  pure { s with pc := new_address }

/-- `CPU.JEQ`: `if not self.fl >> 1: JMP() else: pc += 2`. -/
def JEQ (s : CPUState) : Option CPUState :=
  if pyShiftRight s.fl 1 = 0 then JMP s
  else pure { s with pc := s.pc + 2 }

/-- `CPU.JNE`: `if self.fl >> 1: JMP() else: pc += 2`. -/
def JNE (s : CPUState) : Option CPUState :=
  if pyShiftRight s.fl 1 ≠ 0 then JMP s
  else pure { s with pc := s.pc + 2 }

/-- `CPU.CALL`: `pc += 1; reg[sp] -= 1; ram[reg[sp]] = pc + 1;
pc = reg[ram_read(pc)]`.  The operand read `ram_read(pc)` happens after
the stack write, so it sees the updated RAM. -/
def CALL (s : CPUState) : Option CPUState := do
  let s := { s with pc := s.pc + 1 }
  let v7 ← pyGet s.reg sp
  let reg1 ← pySet s.reg sp (v7 - 1)
  let w7 ← pyGet reg1 sp
  let ram1 ← pySet s.ram w7 (s.pc + 1)
  let opnd ← pyGet ram1 s.pc
  let target ← pyGet reg1 opnd
  pure { s with reg := reg1, ram := ram1, pc := target }

/-- `CPU.RET`: `next_address = ram_read(reg[sp]); reg[sp] += 1;
pc = next_address`. -/
def RET (s : CPUState) : Option CPUState := do
  let v7 ← pyGet s.reg sp
  let next_address ← ram_read s v7
  let reg1 ← pySet s.reg sp (v7 + 1)
  pure { s with reg := reg1, pc := next_address }

/-- `CPU.PUSH`: `reg[sp] -= 1; address = ram_read(pc + 1);
data = reg[address]; ram[reg[sp]] = data`. -/
def PUSH (s : CPUState) : Option CPUState := do
  let v7 ← pyGet s.reg sp
  let reg1 ← pySet s.reg sp (v7 - 1)
  let address ← ram_read s (s.pc + 1)
  let data ← pyGet reg1 address
  let w7 ← pyGet reg1 sp
  let ram1 ← pySet s.ram w7 data
  pure { s with reg := reg1, ram := ram1 }

/-- `CPU.POP`: `copy_to = ram_read(pc + 1); value = ram_read(reg[sp]);
reg[copy_to] = value; reg[sp] += 1`. -/
def POP (s : CPUState) : Option CPUState := do
  let copy_to ← ram_read s (s.pc + 1)
  let v7 ← pyGet s.reg sp
  let value ← ram_read s v7
  let reg1 ← pySet s.reg copy_to value
  let v7b ← pyGet reg1 sp
  let reg2 ← pySet reg1 sp (v7b + 1)
  pure { s with reg := reg2 }

/-- `CPU.LDI`: `reg[ram_read(pc + 1)] = ram_read(pc + 2)`. -/
def LDI (s : CPUState) : Option CPUState := do
  let location ← ram_read s (s.pc + 1)
  let data ← ram_read s (s.pc + 2)
  let reg1 ← pySet s.reg location data
  pure { s with reg := reg1 }

/-- `CPU.HLT`: `working = False`. -/
def HLT (s : CPUState) : Option CPUState :=
  pure { s with working := false }

/-- `CPU.PRN`: reads the operand and the register (so an out-of-range index
raises) and prints; the printed output is out of scope, the state is
unchanged. -/
def PRN (s : CPUState) : Option CPUState := do
  let location ← ram_read s (s.pc + 1)
  let _ ← pyGet s.reg location
  pure s

/-- `CPU.MUL`: read the two operand bytes and run the ALU multiply. -/
def MUL (s : CPUState) : Option CPUState := do
  let location_a ← ram_read s (s.pc + 1)
  let location_b ← ram_read s (s.pc + 2)
  alu s "MUL" location_a location_b

/-- `CPU.ADD`: read the two operand bytes and run the ALU add. -/
def ADD (s : CPUState) : Option CPUState := do
  let location_a ← ram_read s (s.pc + 1)
  let location_b ← ram_read s (s.pc + 2)
  alu s "ADD" location_a location_b

/-- `self.instruction_table`: the opcode → handler dispatch mapping. -/
def instruction_table (ir : Int) : Option (CPUState → Option CPUState) :=
  if ir = 0b10000010 then some LDI
  else if ir = 0b00000001 then some HLT
  else if ir = 0b01000111 then some PRN
  else if ir = 0b10100010 then some MUL
  else if ir = 0b10100000 then some ADD
  else if ir = 0b01000101 then some PUSH
  else if ir = 0b01000110 then some POP
  else if ir = 0b01010000 then some CALL
  else if ir = 0b00010001 then some RET
  else if ir = 0b10100111 then some CMP
  else if ir = 0b01010101 then some JEQ
  else if ir = 0b01010110 then some JNE
  else if ir = 0b01010100 then some JMP
  else none

/-- Python `f"{i:08b}"`: binary digits of `i` zero-padded on the left to a
total width of 8 (the sign, when present, counts towards the width). -/
def toBin8 (i : Int) : String :=
  if i < 0 then
    let ds := Nat.toDigits 2 (-i).toNat
    "-" ++ String.mk (List.replicate (7 - ds.length) '0' ++ ds)
  else
    let ds := Nat.toDigits 2 i.toNat
    String.mk (List.replicate (8 - ds.length) '0' ++ ds)

/-- Outcome of one (or several) cycles of the execution loop: either the
next state, or a raised exception's message together with the CPU object's
state at the moment of the raise. -/
inductive StepResult where
  | ok : CPUState → StepResult
  | err : String → CPUState → StepResult
  deriving Repr, DecidableEq

/-- One iteration of the `while self.working` body of `CPU.run`: fetch
`ir = ram_read(pc)`, look it up in `instruction_table`; if present call the
handler and then, when bit 4 of `ir` is clear, advance `pc` by
`(ir >> 6) + 1`; if absent raise `Unsupported operation` carrying the
opcode rendered in binary.  A handler-internal `IndexError` is reported as
`err "IndexError"` (the claims never inspect the partial state Python
would leave behind in that case, so it is reported as the fetched state). -/
def step (s : CPUState) : StepResult :=
  match ram_read s s.pc with
  | none => .err "IndexError" s
  | some ir =>
    let s := { s with ir := ir }
    match instruction_table ir with
    | none => .err ("Unsupported operation: " ++ toBin8 ir) s
    | some handler =>
      match handler s with
      | none => .err "IndexError" s
      | some s1 =>
        let sets_pc := pyAnd1 (pyShiftRight ir 4)
        if sets_pc = 0 then
          let num_operands := pyShiftRight ir 6
          .ok { s1 with pc := s1.pc + num_operands + 1 }
        else
          .ok s1

/-- The `while self.working` loop of `CPU.run`, with explicit fuel (the
Python loop has no bound; running out of fuel returns the state reached). -/
def runLoop : Nat → CPUState → StepResult
  | 0, s => .ok s
  | n + 1, s =>
    if s.working then
      match step s with
      | .ok s1 => runLoop n s1
      | .err msg s1 => .err msg s1
    else
      .ok s

/-- `CPU.run`: set `working = True`, then loop. -/
def run (fuel : Nat) (s : CPUState) : StepResult :=
  runLoop fuel { s with working := true }

/-- The copy loop of `CPU.load`: `for i in range(len(program)):
self.ram[i] = program[i]`, starting at index `i`. -/
def load_loop : List Int → Nat → List Int → Option (List Int)
  | ram, _, [] => some ram
  | ram, i, p :: ps => do
    let ram1 ← pySet ram (Int.ofNat i) p
    load_loop ram1 (i + 1) ps

/-- The core of `CPU.load`, taking the already-parsed program (the file
reading and base-2 parsing are the external loader contract): returns
whether the too-large warning was printed, and the copied state (`none`
when the copy loop raises an `IndexError`).  The warning is printed before
the copy starts, so it is reported even when the copy then raises. -/
def load (s : CPUState) (program : List Int) : Bool × Option CPUState :=
  let warned := decide (program.length > s.ram.length)
  match load_loop s.ram 0 program with
  | some ram1 => (warned, some { s with ram := ram1 })
  | none => (warned, none)

end CPU

/-- Build a CPU state whose RAM holds `prog` padded with zeros to 256
cells, with the given register file and flags, pc 0, and working = True
(as inside `run`). -/
def progState (prog : List Int) (reg : List Int) (fl : Int) : CPU.CPUState where
  ram := prog ++ List.replicate (256 - prog.length) 0
  pc := 0
  ir := 0
  reg := reg
  working := true
  fl := fl

/-- A state about to execute `LDI R2, 99`. -/
def ldiState : CPU.CPUState :=
  progState [0b10000010, 2, 99] [0, 0, 0, 0, 0, 0, 0, 0xF4] 0

/-- A state about to execute `CMP R0, R1` with registers holding `a`, `b`. -/
def cmpState (a b : Int) : CPU.CPUState :=
  progState [0b10100111, 0, 1] [a, b, 0, 0, 0, 0, 0, 0xF4] 0

/-- A state about to execute `JEQ R3` (or `JNE R3`) with register 3
holding jump target 77 and the given flags. -/
def jumpState (fl : Int) : CPU.CPUState :=
  progState [0b01010101, 3] [0, 0, 0, 77, 0, 0, 0, 0xF4] fl

/-- A state about to execute `JMP R3` with register 3 holding 77. -/
def jmpState : CPU.CPUState :=
  progState [0b01010100, 3] [0, 0, 0, 77, 0, 0, 0, 0xF4] 0

/-- A state about to execute `CALL R3` with register 3 holding 10. -/
def callState : CPU.CPUState :=
  progState [0b01010000, 3] [0, 0, 0, 10, 0, 0, 0, 0xF4] 0

/-- A state about to execute `PUSH R2` with register 2 holding 42. -/
def pushPopState : CPU.CPUState :=
  progState [0b01000101, 2] [0, 0, 42, 0, 0, 0, 0, 0xF4] 0

/-- The state `pushPopState` reaches after the PUSH: 42 sits at the top
of the stack, the stack pointer register went from 0xF4 down to 0xF3. -/
def pushPopMid : CPU.CPUState :=
  { pushPopState with
    reg := [0, 0, 42, 0, 0, 0, 0, 0xF3]
    ram := pushPopState.ram.set 0xF3 42 }

/-- The state `pushPopMid` reaches after the POP: register 2 again holds
42 and the stack pointer register is back at 0xF4. -/
def pushPopEnd : CPU.CPUState :=
  { pushPopMid with reg := [0, 0, 42, 0, 0, 0, 0, 0xF4] }

/-- The state `callState` reaches after the CALL: return address 2 sits
on the stack, the stack pointer register went down to 0xF3, and pc is at
the subroutine address 10. -/
def callMid : CPU.CPUState :=
  { callState with
    reg := [0, 0, 0, 10, 0, 0, 0, 0xF3]
    ram := callState.ram.set 0xF3 2
    pc := 10 }

/-- The state `callMid` reaches after the RET: pc is back at 2 (the
instruction after the CALL) and the stack pointer register at 0xF4. -/
def callEnd : CPU.CPUState :=
  { callMid with
    reg := [0, 0, 0, 10, 0, 0, 0, 0xF4]
    pc := 2 }

/-- A state about to execute `ADD R0, R1` with registers holding 200 and
100: the sum overflows 8 bits. -/
def addOverflowState : CPU.CPUState :=
  progState [0b10100000, 0, 1] [200, 100, 0, 0, 0, 0, 0, 0xF4] 0

/-- A state about to execute `MUL R0, R1` with registers holding 200 and
100: the product overflows 8 bits. -/
def mulOverflowState : CPU.CPUState :=
  progState [0b10100010, 0, 1] [200, 100, 0, 0, 0, 0, 0, 0xF4] 0

/-- A state whose next opcode byte, 0b11111111, is not in the dispatch
table. -/
def badOpcodeState : CPU.CPUState :=
  progState [0b11111111] [0, 0, 0, 0, 0, 0, 0, 0xF4] 0

/-- A state about to execute `PUSH R2` whose stack pointer register
already holds 0: the push underflows the stack region. -/
def underflowState : CPU.CPUState :=
  progState [0b01000101, 2] [0, 0, 42, 0, 0, 0, 0, 0] 0

/-- A 257-byte program: one byte longer than the 256-cell RAM. -/
def prog257 : List Int :=
  List.replicate 257 0

set_option maxRecDepth 8000

/-- A successfully resolved Python index is in range. -/
theorem pyIdx_lt {n : Nat} {i : Int} {j : Nat} (h : pyIdx n i = some j) : j < n := by
  unfold pyIdx at h
  split_ifs at h with h1 h2 <;> simp only [Option.some.injEq] at h <;> omega

/-- Characterisation of a successful `pyGet`. -/
theorem pyGet_eq_some {l : List Int} {i : Int} {x : Int} :
    pyGet l i = some x ↔ ∃ j, pyIdx l.length i = some j ∧ l[j]? = some x := by
  simp [pyGet, Option.bind_eq_some]

/-- Characterisation of a successful `pySet`. -/
theorem pySet_eq_some {l l1 : List Int} {i v : Int} :
    pySet l i v = some l1 ↔ ∃ j, pyIdx l.length i = some j ∧ l1 = l.set j v := by
  unfold pySet
  cases h : pyIdx l.length i <;> simp [h, eq_comm]

/-- `pySet` preserves the length of the list. -/
theorem pySet_length {l l1 : List Int} {i v : Int} (h : pySet l i v = some l1) :
    l1.length = l.length := by
  obtain ⟨j, _, rfl⟩ := pySet_eq_some.mp h
  simp

/-- Reading back the cell a `pySet` just wrote yields the written value. -/
theorem pyGet_pySet_same {l l1 : List Int} {i v : Int} (h : pySet l i v = some l1) :
    pyGet l1 i = some v := by
  obtain ⟨j, hj, rfl⟩ := pySet_eq_some.mp h
  have hlt := pyIdx_lt hj
  apply pyGet_eq_some.mpr
  refine ⟨j, ?_, ?_⟩
  · simpa [List.length_set] using hj
  · simp [List.getElem?_set_self hlt]

/-- Reading a cell that resolves differently from the one a `pySet` wrote
is unaffected by the write. -/
theorem pyGet_pySet_ne {l l1 : List Int} {i k v : Int} (h : pySet l i v = some l1)
    (hne : pyIdx l.length k ≠ pyIdx l.length i) : pyGet l1 k = pyGet l k := by
  obtain ⟨j, hj, rfl⟩ := pySet_eq_some.mp h
  unfold pyGet
  rw [List.length_set]
  cases hk : pyIdx l.length k with
  | none => rfl
  | some j2 =>
    have : j2 ≠ j := by
      intro heq
      exact hne (by rw [hk, hj, heq])
    simp [List.getElem?_set_ne (Ne.symm this)]

/-- A readable cell is writable, to the expected updated list. -/
theorem pySet_of_pyGet {l : List Int} {i x : Int} (v : Int) (h : pyGet l i = some x) :
    ∃ j, pyIdx l.length i = some j ∧ pySet l i v = some (l.set j v) := by
  obtain ⟨j, hj, _⟩ := pyGet_eq_some.mp h
  exact ⟨j, hj, by simp [pySet, hj]⟩

/-- Rewrite a `pyGet` through a known resolved index. -/
theorem pyGet_of_pyIdx {l : List Int} {k : Int} {j : Nat} (h : pyIdx l.length k = some j) :
    pyGet l k = l[j]? := by
  simp [pyGet, h]

/-- `pySet` at a nonnegative (Nat) index is a plain bounds-checked update. -/
theorem pySet_natCast (ram : List Int) (i : Nat) (v : Int) :
    pySet ram (Int.ofNat i) v = if i < ram.length then some (ram.set i v) else none := by
  unfold pySet pyIdx
  split_ifs with h1 h2 h3 <;> simp_all <;> omega

/-- The copy loop of `load` succeeds exactly when the program fits into
the cells from index `i` on (an empty program trivially succeeds). -/
theorem load_loop_isSome (program : List Int) (ram : List Int) (i : Nat) :
    (CPU.load_loop ram i program).isSome ↔ program = [] ∨ i + program.length ≤ ram.length := by
  induction program generalizing ram i with
  | nil => simp [CPU.load_loop]
  | cons p ps ih =>
    simp only [CPU.load_loop, Option.bind_eq_bind, pySet_natCast]
    by_cases h : i < ram.length
    · simp only [h, if_true, Option.some_bind, ih, List.length_set, List.length_cons]
      constructor
      · rintro (rfl | h2)
        · right; simp; omega
        · right; omega
      · rintro (h2 | h2)
        · cases h2
        · right; omega
    · simp only [h, if_false, Option.none_bind, Option.isSome_none, List.length_cons]
      constructor
      · intro h2; cases h2
      · rintro (h2 | h2)
        · cases h2
        · omega

/-- Shared branch analysis of JEQ and JNE: both test `fl >> 1` and either
delegate to JMP (which sets pc to the register named by the operand) or
advance pc by 2. -/
theorem JEQ_JNE_cases (s : CPU.CPUState) (t target : Int)
    (ht : CPU.ram_read s (s.pc + 1) = some t)
    (htarget : pyGet s.reg t = some target) :
    (pyShiftRight s.fl 1 = 0 →
      CPU.JEQ s = some { s with pc := target } ∧
      CPU.JNE s = some { s with pc := s.pc + 2 }) ∧
    (pyShiftRight s.fl 1 ≠ 0 →
      CPU.JEQ s = some { s with pc := s.pc + 2 } ∧
      CPU.JNE s = some { s with pc := target }) := by
  have hjmp : CPU.JMP s = some { s with pc := target } := by
    simp [CPU.JMP, ht, htarget]
  constructor
  · intro h
    simp [CPU.JEQ, CPU.JNE, h, hjmp]
  · intro h
    simp [CPU.JEQ, CPU.JNE, h, hjmp]

/-- C1: in every cycle of the execution loop that dispatches a recognized
opcode, if bit 4 of the opcode (`(ir >> 4) & 1`) is 0 the loop adds
`(ir >> 6) + 1` (operand count plus one) to pc after the handler returns,
and if bit 4 is 1 the loop leaves pc exactly as the handler set it. -/
theorem pc_advance_policy (s : CPU.CPUState) (ir : Int)
    (handler : CPU.CPUState → Option CPU.CPUState) (s1 : CPU.CPUState)
    (hfetch : CPU.ram_read s s.pc = some ir)
    (htable : CPU.instruction_table ir = some handler)
    (hrun : handler { s with ir := ir } = some s1) :
    CPU.step s =
      if pyAnd1 (pyShiftRight ir 4) = 0 then
        .ok { s1 with pc := s1.pc + pyShiftRight ir 6 + 1 }
      else
        .ok s1 := by
  simp only [CPU.step, hfetch, htable, hrun]

/-- Witness for C1: an LDI cycle (bit 4 clear) advances pc by its two
operands plus one; a JMP cycle (bit 4 set) leaves pc where the handler
put it. -/
theorem pc_advance_policy_witness :
    CPU.step ldiState =
      .ok { ldiState with ir := 0b10000010, pc := 3, reg := [0, 0, 99, 0, 0, 0, 0, 0xF4] } ∧
    CPU.step jmpState = .ok { jmpState with ir := 0b01010100, pc := 77 } := by
  constructor
  · have h := pc_advance_policy ldiState 0b10000010 CPU.LDI
      { ldiState with ir := 0b10000010, reg := [0, 0, 99, 0, 0, 0, 0, 0xF4] } rfl rfl rfl
    rw [if_pos (by decide)] at h
    exact h
  · have h := pc_advance_policy jmpState 0b01010100 CPU.JMP
      { jmpState with ir := 0b01010100, pc := 77 } rfl rfl rfl
    rw [if_neg (by decide)] at h
    exact h

/-- C2: CMP with register operands `a` and `b` sets the flags register to
0b010 when Register[a] > Register[b], to 0b100 when
Register[a] < Register[b], and to 0b001 when they are equal; nothing else
in the state changes. -/
theorem CMP_sets_flags (s : CPU.CPUState) (a b va vb : Int)
    (ha : CPU.ram_read s (s.pc + 1) = some a)
    (hb : CPU.ram_read s (s.pc + 2) = some b)
    (hva : pyGet s.reg a = some va)
    (hvb : pyGet s.reg b = some vb) :
    CPU.CMP s =
      some { s with fl := if va > vb then 0b010 else if va < vb then 0b100 else 0b001 } := by
  simp only [CPU.CMP, CPU.alu, ha, hb, hva, hvb, Option.bind_eq_bind, Option.some_bind,
    String.reduceEq, if_false, if_true, reduceIte]
  rfl

/-- Witness for C2: comparing registers holding 5 and 3 sets flags 0b010,
3 and 5 sets 0b100, 4 and 4 sets 0b001; the rest of the state is kept. -/
theorem CMP_sets_flags_witness :
    CPU.CMP (cmpState 5 3) = some { cmpState 5 3 with fl := 2 } ∧
    CPU.CMP (cmpState 3 5) = some { cmpState 3 5 with fl := 4 } ∧
    CPU.CMP (cmpState 4 4) = some { cmpState 4 4 with fl := 1 } :=
  ⟨CMP_sets_flags (cmpState 5 3) 0 1 5 3 rfl rfl rfl rfl,
   CMP_sets_flags (cmpState 3 5) 0 1 3 5 rfl rfl rfl rfl,
   CMP_sets_flags (cmpState 4 4) 0 1 4 4 rfl rfl rfl rfl⟩

/-- C3: JEQ jumps (pc becomes Register[Memory[pc+1]]) exactly when
`fl >> 1` is zero and otherwise advances pc by 2; JNE jumps exactly when
`fl >> 1` is nonzero and otherwise advances pc by 2.  On the three flag
values a CMP can produce, JEQ jumps exactly on 0b001 and JNE exactly on
0b010 or 0b100. -/
theorem JEQ_JNE_semantics (s : CPU.CPUState) (t target : Int)
    (ht : CPU.ram_read s (s.pc + 1) = some t)
    (htarget : pyGet s.reg t = some target) :
    (pyShiftRight s.fl 1 = 0 →
      CPU.JEQ s = some { s with pc := target } ∧
      CPU.JNE s = some { s with pc := s.pc + 2 }) ∧
    (pyShiftRight s.fl 1 ≠ 0 →
      CPU.JEQ s = some { s with pc := s.pc + 2 } ∧
      CPU.JNE s = some { s with pc := target }) ∧
    (s.fl = 0b001 →
      CPU.JEQ s = some { s with pc := target } ∧
      CPU.JNE s = some { s with pc := s.pc + 2 }) ∧
    (s.fl = 0b010 ∨ s.fl = 0b100 →
      CPU.JEQ s = some { s with pc := s.pc + 2 } ∧
      CPU.JNE s = some { s with pc := target }) := by
  obtain ⟨h0, h1⟩ := JEQ_JNE_cases s t target ht htarget
  refine ⟨h0, h1, ?_, ?_⟩
  · intro h
    exact h0 (by simp [pyShiftRight, h])
  · intro h
    refine h1 ?_
    rcases h with h | h <;> simp [pyShiftRight, h]

/-- Witness for C3: with flags 0b001 JEQ jumps to 77 and JNE falls
through to pc+2; with flags 0b010 the two swap roles. -/
theorem JEQ_JNE_semantics_witness :
    (CPU.JEQ (jumpState 1) = some { jumpState 1 with pc := 77 } ∧
      CPU.JNE (jumpState 1) = some { jumpState 1 with pc := 2 }) ∧
    (CPU.JEQ (jumpState 2) = some { jumpState 2 with pc := 2 } ∧
      CPU.JNE (jumpState 2) = some { jumpState 2 with pc := 77 }) := by
  refine ⟨(JEQ_JNE_semantics (jumpState 1) 3 77 rfl rfl).2.2.1 rfl, ?_⟩
  exact (JEQ_JNE_semantics (jumpState 2) 3 77 rfl rfl).2.2.2 (Or.inl rfl)

/-- C9: the flags register is initialised to 0, and with flags still 0 a
JEQ takes the jump (0 >> 1 = 0 is indistinguishable from the equal case)
while a JNE falls through and advances pc by 2. -/
theorem JEQ_uninitialized_flags (s : CPU.CPUState) (t target : Int)
    (hfl : s.fl = CPU.initCPU.fl)
    (ht : CPU.ram_read s (s.pc + 1) = some t)
    (htarget : pyGet s.reg t = some target) :
    CPU.initCPU.fl = 0 ∧
    CPU.JEQ s = some { s with pc := target } ∧
    CPU.JNE s = some { s with pc := s.pc + 2 } := by
  have h0 : s.fl = 0 := hfl
  refine ⟨rfl, (JEQ_JNE_cases s t target ht htarget).1 ?_⟩
  simp [pyShiftRight, h0]

/-- Witness for C9: with flags 0, JEQ at a JEQ instruction jumps to 77
and JNE advances pc to 2. -/
theorem JEQ_uninitialized_flags_witness :
    CPU.initCPU.fl = 0 ∧
    CPU.JEQ (jumpState 0) = some { jumpState 0 with pc := 77 } ∧
    CPU.JNE (jumpState 0) = some { jumpState 0 with pc := 2 } :=
  JEQ_uninitialized_flags (jumpState 0) 3 77 rfl rfl rfl

/-- C4: CALL pushes the address of the instruction after the CALL
(pc + 2) onto the stack — decrementing Register[7] by 1 and writing the
return address to Memory[Register[7]] — and sets pc to Register[operand1];
a subsequent RET, run from a state whose stack pointer is back at that
slot with the return address still there, sets pc to that return address
and increments Register[7] back to its pre-CALL value. -/
theorem CALL_RET_roundtrip (s s1 s2 s3 : CPU.CPUState) (v7 opnd target : Int)
    (h7 : pyGet s.reg CPU.sp = some v7)
    (hop : CPU.ram_read s (s.pc + 1) = some opnd)
    (hopne : pyIdx s.ram.length (s.pc + 1) ≠ pyIdx s.ram.length (v7 - 1))
    (hopne7 : pyIdx s.reg.length opnd ≠ pyIdx s.reg.length CPU.sp)
    (htarget : pyGet s.reg opnd = some target)
    (hc : CPU.CALL s = some s1)
    (h2reg : pyGet s2.reg CPU.sp = some (v7 - 1))
    (h2slot : CPU.ram_read s2 (v7 - 1) = some (s.pc + 2))
    (hr : CPU.RET s2 = some s3) :
    s1.pc = target ∧
    pyGet s1.reg CPU.sp = some (v7 - 1) ∧
    CPU.ram_read s1 (v7 - 1) = some (s.pc + 2) ∧
    s3.pc = s.pc + 2 ∧
    pyGet s3.reg CPU.sp = some v7 := by
  simp only [CPU.CALL, Option.bind_eq_bind', Option.bind_eq_some, Option.pure_def,
    Option.some.injEq] at hc
  obtain ⟨v7c, h7c, reg1, hset1, w7, hw7, ram1, hram, opndc, hopndc, targetc, htargetc, hs1⟩ := hc
  rw [h7] at h7c
  cases h7c
  rw [pyGet_pySet_same hset1] at hw7
  cases hw7
  rw [pyGet_pySet_ne hram hopne] at hopndc
  rw [CPU.ram_read] at hop
  rw [hop] at hopndc
  cases hopndc
  rw [pyGet_pySet_ne hset1 hopne7, htarget] at htargetc
  cases htargetc
  subst hs1
  refine ⟨rfl, pyGet_pySet_same hset1, ?_, ?_, ?_⟩
  · show pyGet ram1 (v7 - 1) = some (s.pc + 2)
    rw [pyGet_pySet_same hram]
    congr 1
    omega
  · simp only [CPU.RET, Option.bind_eq_bind', Option.bind_eq_some, Option.pure_def,
      Option.some.injEq] at hr
    obtain ⟨v7r, h7r, na, hna, reg2, hreg2, hs3⟩ := hr
    rw [h2reg] at h7r
    cases h7r
    rw [CPU.ram_read] at h2slot
    rw [CPU.ram_read] at hna
    rw [h2slot] at hna
    cases hna
    subst hs3
    rfl
  · simp only [CPU.RET, Option.bind_eq_bind', Option.bind_eq_some, Option.pure_def,
      Option.some.injEq] at hr
    obtain ⟨v7r, h7r, na, hna, reg2, hreg2, hs3⟩ := hr
    rw [h2reg] at h7r
    cases h7r
    subst hs3
    show pyGet reg2 CPU.sp = some v7
    rw [pyGet_pySet_same hreg2]
    congr 1
    omega

/-- Witness for C4: `CALL R3` from pc 0 (register 3 holding 10) pushes
return address 2 at cell 0xF3, jumps to 10, and the immediate RET comes
back to pc 2 with the stack pointer restored to 0xF4. -/
theorem CALL_RET_roundtrip_witness :
    CPU.CALL callState = some callMid ∧
    CPU.RET callMid = some callEnd ∧
    (callMid.pc = 10 ∧
      pyGet callMid.reg CPU.sp = some (0xF4 - 1) ∧
      CPU.ram_read callMid (0xF4 - 1) = some (callState.pc + 2) ∧
      callEnd.pc = callState.pc + 2 ∧
      pyGet callEnd.reg CPU.sp = some 0xF4) :=
  ⟨rfl, rfl,
    CALL_RET_roundtrip callState callMid callMid callEnd 0xF4 3 10
      rfl rfl (by decide) (by decide) rfl rfl rfl rfl rfl⟩

/-- C5: for every starting state, PUSH with operand `r` followed by POP
with operand `r` restores Register[r] to its pre-PUSH value and restores
the stack-pointer register Register[7] to its pre-PUSH value. -/
theorem PUSH_POP_roundtrip (s s1 s2 : CPU.CPUState) (r : Int)
    (h1 : CPU.ram_read s (s.pc + 1) = some r)
    (hp : CPU.PUSH s = some s1)
    (h2 : CPU.ram_read s1 (s1.pc + 1) = some r)
    (hq : CPU.POP s1 = some s2) :
    pyGet s2.reg r = pyGet s.reg r ∧ pyGet s2.reg CPU.sp = pyGet s.reg CPU.sp := by
  simp only [CPU.PUSH, Option.bind_eq_bind', Option.bind_eq_some, Option.pure_def,
    Option.some.injEq] at hp
  obtain ⟨v7, h7, reg1, hset1, address, haddr, data, hdata, w7, hw7, ram1, hram, hs1⟩ := hp
  rw [h1] at haddr
  cases haddr
  rw [pyGet_pySet_same hset1] at hw7
  cases hw7
  simp only [CPU.POP, Option.bind_eq_bind', Option.bind_eq_some, Option.pure_def,
    Option.some.injEq] at hq
  obtain ⟨copy_to, hct, v7x, hv7x, value, hvalue, reg2, hreg2, v7b, hv7b, reg3, hreg3, hs2⟩ := hq
  rw [h2] at hct
  cases hct
  subst hs1
  simp only [CPU.ram_read] at hvalue h1 h2
  rw [pyGet_pySet_same hset1] at hv7x
  cases hv7x
  rw [pyGet_pySet_same hram] at hvalue
  cases hvalue
  obtain ⟨j7, hj7, hsv7⟩ := pyGet_eq_some.mp h7
  obtain ⟨j7x, hj7x, rfl⟩ := pySet_eq_some.mp hset1
  rw [hj7] at hj7x
  cases hj7x
  have hlen1 : (s.reg.set j7 (v7 - 1)).length = s.reg.length := by simp
  have hj7lt : j7 < s.reg.length := pyIdx_lt hj7
  obtain ⟨jr, hjr, hdv⟩ := pyGet_eq_some.mp hdata
  rw [hlen1] at hjr
  obtain ⟨jr2, hjr2, rfl⟩ := pySet_eq_some.mp hreg2
  rw [hlen1, hjr] at hjr2
  cases hjr2
  obtain ⟨j7y, hj7y, hv7bv⟩ := pyGet_eq_some.mp hv7b
  rw [List.length_set, hlen1, hj7] at hj7y
  cases hj7y
  obtain ⟨j7z, hj7z, rfl⟩ := pySet_eq_some.mp hreg3
  rw [List.length_set, List.length_set, hj7] at hj7z
  cases hj7z
  subst hs2
  have hjrlt : jr < s.reg.length := pyIdx_lt hjr
  by_cases hcase : jr = j7
  · subst hcase
    -- the operand register is the stack-pointer register itself
    have hdval : data = v7 - 1 := by
      rw [List.getElem?_set_self (by omega)] at hdv
      exact (Option.some.inj hdv).symm
    have hv7bval : v7b = data := by
      rw [List.getElem?_set_self (by simpa using hjrlt)] at hv7bv
      exact (Option.some.inj hv7bv).symm
    constructor
    · rw [pyGet_of_pyIdx (by simpa using hjr), pyGet_of_pyIdx hjr,
        List.getElem?_set_self (by simpa using hjrlt), hsv7, hv7bval, hdval]
      congr 1
      omega
    · rw [pyGet_of_pyIdx (by simpa using hj7), pyGet_of_pyIdx hj7,
        List.getElem?_set_self (by simpa using hj7lt), hsv7, hv7bval, hdval]
      congr 1
      omega
  · -- the operand register is a different cell from the stack pointer
    have hdval : s.reg[jr]? = some data := by
      rw [List.getElem?_set_ne (Ne.symm hcase)] at hdv
      exact hdv
    have hv7bval : v7b = v7 - 1 := by
      rw [List.getElem?_set_ne hcase, List.getElem?_set_self (by omega)] at hv7bv
      exact (Option.some.inj hv7bv).symm
    constructor
    · rw [pyGet_of_pyIdx (by simpa using hjr), pyGet_of_pyIdx hjr,
        List.getElem?_set_ne (Ne.symm hcase), List.getElem?_set_self (by simpa using hjrlt)]
      exact hdval.symm
    · rw [pyGet_of_pyIdx (by simpa using hj7), pyGet_of_pyIdx hj7,
        List.getElem?_set_self (by simpa using hj7lt), hsv7, hv7bval]
      congr 1
      omega

/-- Witness for C5: `PUSH R2` then `POP R2` with register 2 holding 42
leaves register 2 at 42 and the stack pointer back at 0xF4. -/
theorem PUSH_POP_roundtrip_witness :
    CPU.PUSH pushPopState = some pushPopMid ∧
    CPU.POP pushPopMid = some pushPopEnd ∧
    (pyGet pushPopEnd.reg 2 = pyGet pushPopState.reg 2 ∧
      pyGet pushPopEnd.reg CPU.sp = pyGet pushPopState.reg CPU.sp) :=
  ⟨rfl, rfl, PUSH_POP_roundtrip pushPopState pushPopMid pushPopEnd 2 rfl rfl rfl rfl⟩

/-- Counterexample to C6: executing ADD on registers holding 200 and 100
leaves 300 in the destination register, not (200 + 100) mod 256 = 44 as
the claim states: the code performs unbounded integer arithmetic. -/
theorem ADD_mod256_counterexample :
    (CPU.ADD addOverflowState).bind (fun s1 => pyGet s1.reg 0) = some 300 ∧
    ((200 + 100 : Int) % 256 = 44) ∧ (300 : Int) ≠ 44 :=
  ⟨rfl, by decide, by decide⟩

/-- C6 as amended: ADD stores the exact (unbounded) sum
Register[a] + Register[b] in the destination register and MUL stores the
exact product; no reduction modulo 256 is applied, so register values can
leave the range 0–255. -/
theorem alu_unbounded_arithmetic (s : CPU.CPUState) (a b va vb : Int)
    (ha : CPU.ram_read s (s.pc + 1) = some a)
    (hb : CPU.ram_read s (s.pc + 2) = some b)
    (hva : pyGet s.reg a = some va)
    (hvb : pyGet s.reg b = some vb) :
    (CPU.ADD s).bind (fun s1 => pyGet s1.reg a) = some (va + vb) ∧
    (CPU.MUL s).bind (fun s1 => pyGet s1.reg a) = some (va * vb) := by
  obtain ⟨ja, hja, hseta⟩ := pySet_of_pyGet (va + vb) hva
  obtain ⟨ja2, hja2, hsetm⟩ := pySet_of_pyGet (va * vb) hva
  constructor
  · simp only [CPU.ADD, CPU.alu, ha, hb, hva, hvb, hseta, Option.bind_eq_bind,
      Option.some_bind, String.reduceEq, reduceIte, if_true]
    exact pyGet_pySet_same hseta
  · simp only [CPU.MUL, CPU.alu, ha, hb, hva, hvb, hsetm, Option.bind_eq_bind,
      Option.some_bind, String.reduceEq, reduceIte, if_true]
    exact pyGet_pySet_same hsetm

/-- Witness for the amended C6: 200 + 100 gives 300 and 200 * 100 gives
20000 in the destination register. -/
theorem alu_unbounded_arithmetic_witness :
    (CPU.ADD addOverflowState).bind (fun s1 => pyGet s1.reg 0) = some 300 ∧
    (CPU.MUL mulOverflowState).bind (fun s1 => pyGet s1.reg 0) = some 20000 :=
  ⟨(alu_unbounded_arithmetic addOverflowState 0 1 200 100 rfl rfl rfl rfl).1,
   (alu_unbounded_arithmetic mulOverflowState 0 1 200 100 rfl rfl rfl rfl).2⟩

/-- Counterexample to C7: loading a 257-byte program into the freshly
constructed CPU prints the too-large warning but the copy then raises an
IndexError (the copy does not complete). -/
theorem load_oversized_counterexample :
    (CPU.load CPU.initCPU prog257).1 = true ∧ (CPU.load CPU.initCPU prog257).2 = none :=
  ⟨rfl, rfl⟩

/-- C7 as amended: load warns exactly when the program is longer than
memory, and the copy completes exactly when the program fits; for a
longer program the copy loop raises an IndexError at the first
out-of-range cell instead of finishing. -/
theorem load_warning_and_copy_bound (s : CPU.CPUState) (program : List Int) :
    ((CPU.load s program).1 = true ↔ s.ram.length < program.length) ∧
    ((CPU.load s program).2.isSome ↔ program.length ≤ s.ram.length) := by
  have h := load_loop_isSome program s.ram 0
  rw [Nat.zero_add] at h
  unfold CPU.load
  cases hl : CPU.load_loop s.ram 0 program with
  | none =>
    rw [hl] at h
    simp only [Option.isSome_none, Bool.false_eq_true, false_iff, not_or] at h
    obtain ⟨hne, hgt⟩ := h
    refine ⟨by simp, ?_⟩
    simp only [Option.isSome_none, Bool.false_eq_true, false_iff]
    omega
  | some ram1 =>
    rw [hl] at h
    simp only [Option.isSome_some, true_iff] at h
    refine ⟨by simp, ?_⟩
    simp only [Option.isSome_some, true_iff]
    rcases h with rfl | h
    · simp
    · omega

/-- C8: fetching an opcode byte absent from the dispatch table makes the
cycle fail fatally with a message carrying that exact byte rendered as an
8-bit binary string; no handler runs then or in any later cycle, and the
error state differs from the fetched state only in the instruction
register — memory, registers, flags and pc are untouched.  The last
conjunct checks the rendering really is 8 characters for every byte. -/
theorem unsupported_opcode_fatal (s : CPU.CPUState) (ir : Int) (n : Nat)
    (hw : s.working = true)
    (hfetch : CPU.ram_read s s.pc = some ir)
    (htable : CPU.instruction_table ir = none) :
    CPU.step s = .err ("Unsupported operation: " ++ CPU.toBin8 ir) { s with ir := ir } ∧
    CPU.runLoop (n + 1) s =
      .err ("Unsupported operation: " ++ CPU.toBin8 ir) { s with ir := ir } ∧
    (∀ m : Fin 256, (CPU.toBin8 (m : Int)).length = 8) := by
  have hstep : CPU.step s =
      .err ("Unsupported operation: " ++ CPU.toBin8 ir) { s with ir := ir } := by
    simp only [CPU.step, hfetch, htable]
  refine ⟨hstep, ?_, by decide⟩
  simp only [CPU.runLoop, hw, if_true, hstep]

/-- Witness for C8: byte 0b11111111 is not a key of the dispatch table,
and running a cycle on it fails with the binary-rendered message while
only the instruction register changes. -/
theorem unsupported_opcode_fatal_witness :
    CPU.step badOpcodeState =
      .err "Unsupported operation: 11111111" { badOpcodeState with ir := 255 } ∧
    CPU.runLoop 1 badOpcodeState =
      .err "Unsupported operation: 11111111" { badOpcodeState with ir := 255 } :=
  ⟨(unsupported_opcode_fatal badOpcodeState 255 0 rfl rfl rfl).1,
   (unsupported_opcode_fatal badOpcodeState 255 0 rfl rfl rfl).2.1⟩

/-- C10: PUSH and CALL decrement the stack-pointer register with no lower
bound and no bounds error: from Register[7] = 0 a PUSH succeeds, leaves
Register[7] = -1 and writes the pushed value to Memory[255] (the negative
index wraps to the last cell); a CALL from the same state likewise writes
its return address pc+2 to Memory[255], leaves Register[7] = -1, and
jumps to the operand register's value. -/
theorem stack_underflow_wraps (s : CPU.CPUState) (r data : Int)
    (hram : s.ram.length = 256)
    (h7 : pyGet s.reg CPU.sp = some 0)
    (hr : CPU.ram_read s (s.pc + 1) = some r)
    (hjrne : pyIdx s.reg.length r ≠ pyIdx s.reg.length CPU.sp)
    (hd : pyGet s.reg r = some data)
    (hpcne : pyIdx s.ram.length (s.pc + 1) ≠ pyIdx s.ram.length (0 - 1)) :
    (CPU.PUSH s).map (fun s1 => (pyGet s1.reg CPU.sp, s1.ram)) =
      some (some (-1), s.ram.set 255 data) ∧
    (CPU.CALL s).map (fun s1 => (pyGet s1.reg CPU.sp, s1.ram, s1.pc)) =
      some (some (-1), s.ram.set 255 (s.pc + 1 + 1), data) := by
  obtain ⟨j7, hj7, hset1⟩ := pySet_of_pyGet ((0 : Int) - 1) h7
  have hgetr : pyGet (s.reg.set j7 (0 - 1)) r = some data := by
    rw [pyGet_pySet_ne hset1 hjrne, hd]
  have hget7 : pyGet (s.reg.set j7 (0 - 1)) CPU.sp = some (0 - 1) :=
    pyGet_pySet_same hset1
  have hidx : pyIdx s.ram.length (-1 : Int) = some 255 := by
    rw [hram]; decide
  constructor
  · have hsetram : pySet s.ram ((0 : Int) - 1) data = some (s.ram.set 255 data) := by
      norm_num [pySet, hidx]
    simp only [CPU.PUSH, Option.bind_eq_bind', h7, Option.some_bind, hset1, hr, hgetr,
      hget7, hsetram, Option.pure_def, Option.map_some']
    norm_num
  · have hsetram : pySet s.ram ((0 : Int) - 1) (s.pc + 1 + 1) =
        some (s.ram.set 255 (s.pc + 1 + 1)) := by
      norm_num [pySet, hidx]
    have hgetop : pyGet (s.ram.set 255 (s.pc + 1 + 1)) (s.pc + 1) = some r := by
      rw [← hr]
      show pyGet (s.ram.set 255 (s.pc + 1 + 1)) (s.pc + 1) = CPU.ram_read s (s.pc + 1)
      rw [CPU.ram_read]
      exact pyGet_pySet_ne hsetram hpcne
    simp only [CPU.CALL, Option.bind_eq_bind', h7, Option.some_bind, hset1, hget7,
      hsetram, hgetop, hgetr, Option.pure_def, Option.map_some']
    norm_num

/-- Witness for C10: `PUSH R2` from a state with Register[7] = 0 and
register 2 holding 42 writes 42 to cell 255 with Register[7] = -1, and
`CALL R2` from that state writes return address 2 to cell 255 and jumps
to 42. -/
theorem stack_underflow_wraps_witness :
    (CPU.PUSH underflowState).map (fun s1 => (pyGet s1.reg CPU.sp, s1.ram)) =
      some (some (-1), underflowState.ram.set 255 42) ∧
    (CPU.CALL underflowState).map (fun s1 => (pyGet s1.reg CPU.sp, s1.ram, s1.pc)) =
      some (some (-1), underflowState.ram.set 255 (underflowState.pc + 1 + 1), 42) :=
  stack_underflow_wraps underflowState 2 42 rfl rfl rfl (by decide) rfl (by decide)
